import Mathlib

/-!
Verification of the fat-buck valuation engine (`evaluate.py`, `utils.py`).

The Python engine works on floating-point numbers; the embedding models all
currency/ratio values as rationals (`ℚ`), except for the generic growth-rate
law, which takes a real n-th root and is modelled over `ℝ`.  A raw Python
division (`a / b`) raises `ZeroDivisionError` when `b == 0`; it is modelled as
`pydiv`, returning `none` in that case.  `utils.safeDivide` catches the
exception and returns `0.00`; it is modelled as the total `safeDivide`.

Statement histories are Python dicts keyed by ISO date strings; they are
modelled as association lists of `(date, statement)` pairs with distinct keys.
Python compares date strings lexicographically by code point; the builtin Lean
`String` order is not kernel-executable, so the embedding uses the executable
code-point comparator `strLt` (proved to be a linear-order-like comparison
below).

`getNetIncomeGrowthRate` and `getPriceGrowthRate` depend on the wall clock
(`datetime.now()`) and on the external trend estimator
(`utils.getTrendEstimateForDate`, which is not part of the sources); the
values they produce enter `getValuation` as explicit parameters of the
embedding.
-/

namespace FatBuck

/-- `utils.safeDivide`: `try: return a / b except: return 0.00`. -/
def safeDivide (a b : ℚ) : ℚ := if b = 0 then 0 else a / b

/-- A raw Python division `a / b`: `none` models the `ZeroDivisionError`
raised when `b == 0`. -/
def pydiv (a b : ℚ) : Option ℚ := if b = 0 then none else some (a / b)

/-- `customRound(number, digits)` = Python `round(number, digits)`.
Python rounds floats half-to-even in binary; on the rational model we use the
standard `round` (ties never occur at the inputs evaluated below, where the
two conventions agree). -/
def customRound (x : ℚ) (digits : ℕ) : ℚ :=
  ((round (x * (10 : ℚ) ^ digits) : ℤ) : ℚ) / (10 : ℚ) ^ digits

/-- Lexicographic code-point comparison of character lists, the order Python
uses on strings. -/
def strLtB : List Char → List Char → Bool
  | _, [] => false
  | [], _ :: _ => true
  | c :: cs, d :: ds =>
    if c.toNat < d.toNat then true
    else if d.toNat < c.toNat then false
    else strLtB cs ds

/-- `a < b` on strings, as Python compares date strings. -/
def strLt (a b : String) : Bool := strLtB a.data b.data

/-- `a <= b` on strings. -/
def strLe (a b : String) : Bool := !(strLt b a)

/-- `utils.getLargest(a, b)`: `if not a: a = b elif b > a: a = b; return a`.
(`not a` on a string tests for the empty string.) -/
def getLargest (a b : String) : String :=
  if a = "" then b else if strLt a b then b else a

/-- `models.IncomeStatement` (models.py is not in src; field set modelled from
the spec data model and the fields `evaluate.py` reads, absent values are 0). -/
structure IncomeStatement where
  totalRevenue : ℚ := 0
  netIncome : ℚ := 0
  incomeBeforeTax : ℚ := 0
  interestIncome : ℚ := 0
  interestExpense : ℚ := 0
  deriving DecidableEq

/-- `models.BalanceSheet` (modelled from the spec data model, see
`IncomeStatement`). -/
structure BalanceSheet where
  assets : ℚ := 0
  currentAssets : ℚ := 0
  liabilities : ℚ := 0
  currentLiabilities : ℚ := 0
  retainedEarnings : ℚ := 0
  cash : ℚ := 0
  deriving DecidableEq

/-- `models.CashFlowStatement` (modelled from the spec data model, see
`IncomeStatement`). -/
structure CashFlowStatement where
  dividendsPaid : ℚ := 0
  cashFromOperations : ℚ := 0
  capex : ℚ := 0
  deriving DecidableEq

/-- The three statement histories of a stock: mappings from ISO date string to
statement, modelled as association lists with distinct keys. -/
structure FinancialStatements where
  incomeStatements : List (String × IncomeStatement) := []
  balanceSheets : List (String × BalanceSheet) := []
  cashFlowStatements : List (String × CashFlowStatement) := []
  deriving DecidableEq

/-- `models.Stock` (the fields the valuation engine reads; `historicalPricing`
only feeds `getPriceGrowthRate`, which is a parameter of the embedding). -/
structure Stock where
  symbol : String := ""
  sharesOutstanding : ℚ := 0
  currentPrice : ℚ := 0
  financialStatements : FinancialStatements := {}
  deriving DecidableEq

/-- `models.ValuationModel` (modelled from the spec data model: the assumption
and threshold fields `evaluate.py` reads). -/
structure ValuationModel where
  yearsForEarningsCalcs : ℕ := 1
  minMos : ℚ := 0
  discountRate : ℚ := 0
  declineRate : ℚ := 0
  minRoe : ℚ := 0
  minGrowthRate : ℚ := 0
  maxDte : ℚ := 0
  minCr : ℚ := 0
  minEps : ℚ := 0
  maxPe : ℚ := 0
  maxPeg : ℚ := 0
  maxPb : ℚ := 0
  maxBlendedMultiplier : ℚ := 0
  minAltmanZScore : ℚ := 0
  minStatementYears : ℕ := 0
  deriving DecidableEq

/-- `models.Valuation` (modelled from the spec data model: the output record
`getValuation` fills; `Valuation()` is the all-default record). -/
structure Valuation where
  dividendYield : ℚ := 0
  marketCap : ℚ := 0
  roe : ℚ := 0
  roa : ℚ := 0
  growthRate : ℚ := 0
  priceGrowthRate : ℚ := 0
  dte : ℚ := 0
  cr : ℚ := 0
  eps : ℚ := 0
  pe : ℚ := 0
  peg : ℚ := 0
  pb : ℚ := 0
  blendedMultiplier : ℚ := 0
  fcf : ℚ := 0
  altmanZScore : ℚ := 0
  statementYears : ℕ := 0
  peMultipleIv : ℚ := 0
  grahamIv : ℚ := 0
  dcfIv : ℚ := 0
  roeIv : ℚ := 0
  liquidationIv : ℚ := 0
  fairValue : ℚ := 0
  expectedReturn : ℚ := 0
  instruction : String := ""
  health : String := ""
  deriving DecidableEq

/-- `Valuation()`: the default output record. -/
def defaultValuation : Valuation := {}

/-- `getDividendYield(dividendsPaid, sharesOutstanding, currentPrice)`. -/
def getDividendYield (dividendsPaid sharesOutstanding currentPrice : ℚ) : ℚ :=
  safeDivide (safeDivide dividendsPaid sharesOutstanding) currentPrice

/-- `getMarketCap(sharesOutstanding, currentPrice)`. -/
def getMarketCap (sharesOutstanding currentPrice : ℚ) : ℚ :=
  sharesOutstanding * currentPrice

/-- `getEquity(assets, liabilities)`. -/
def getEquity (assets liabilities : ℚ) : ℚ := assets - liabilities

/-- `getRoe(netIncome, equity)`. -/
def getRoe (netIncome equity : ℚ) : ℚ := safeDivide netIncome equity

/-- `getRoa(netIncome, assets)`. -/
def getRoa (netIncome assets : ℚ) : ℚ := safeDivide netIncome assets

/-- `getDte(totalDebt, equity)`. -/
def getDte (totalDebt equity : ℚ) : ℚ := safeDivide totalDebt equity

/-- `getCr(currentAssets, currentLiabilities)`. -/
def getCr (currentAssets currentLiabilities : ℚ) : ℚ :=
  safeDivide currentAssets currentLiabilities

/-- `getFcf(operatingCashFlow, capex)`. -/
def getFcf (operatingCashFlow capex : ℚ) : ℚ := operatingCashFlow - |capex|

/-- `getEps(netIncome, sharesOutstanding)`. -/
def getEps (netIncome sharesOutstanding : ℚ) : ℚ :=
  safeDivide netIncome sharesOutstanding

/-- `getPe(currentPrice, eps)`. -/
def getPe (currentPrice eps : ℚ) : ℚ := safeDivide currentPrice eps

/-- `getPeg(pe, growthRate)`: returns 0 when the growth rate is 0 (falsy),
otherwise `pe / (100 * growthRate)`, negated when both inputs are negative.
(The raw division cannot raise: the guard rules out a zero divisor.) -/
def getPeg (pe growthRate : ℚ) : ℚ :=
  if growthRate = 0 then 0
  else
    let peg := pe / (100 * growthRate)
    if pe < 0 ∧ growthRate < 0 then peg * -1 else peg

/-- `getPb(currentPrice, equity, sharesOutstanding)`. -/
def getPb (currentPrice equity sharesOutstanding : ℚ) : ℚ :=
  safeDivide currentPrice (safeDivide equity sharesOutstanding)

/-- `getViability(valuation, model)`: the boolean threshold gate, one
disjunct per Python condition (including the duplicated `dte < 0` test and
the `not valuation.peg` / `not valuation.blendedMultiplier` falsiness tests). -/
def getViability (valuation : Valuation) (model : ValuationModel) : Bool :=
  if valuation.roe < model.minRoe
      ∨ valuation.growthRate < model.minGrowthRate
      ∨ valuation.dte > model.maxDte
      ∨ valuation.dte < 0
      ∨ valuation.dte < 0
      ∨ valuation.cr < model.minCr
      ∨ valuation.eps < model.minEps
      ∨ valuation.pe > model.maxPe
      ∨ valuation.pe < 0
      ∨ valuation.peg > model.maxPeg
      ∨ valuation.peg < 0
      ∨ valuation.peg = 0
      ∨ valuation.pb > model.maxPb
      ∨ valuation.pb < 0
      ∨ valuation.blendedMultiplier > model.maxBlendedMultiplier
      ∨ valuation.blendedMultiplier ≤ 0
      ∨ valuation.blendedMultiplier = 0
      ∨ valuation.altmanZScore < model.minAltmanZScore
      ∨ valuation.statementYears < model.minStatementYears
  then false else true

/-- `getInstruction(valuation, currentPrice, model)`. -/
def getInstruction (valuation : Valuation) (currentPrice : ℚ)
    (model : ValuationModel) : String :=
  let stockIsViable := getViability valuation model
  if stockIsViable = false ∨ currentPrice ≥ valuation.fairValue then "SELL"
  else if stockIsViable = true ∧ currentPrice ≤ valuation.fairValue then "BUY"
  else "HOLD"

/-- `getHealth(valuation)`. -/
def getHealth (valuation : Valuation) : String :=
  if valuation.altmanZScore < 1.8 then "DYING"
  else if valuation.altmanZScore ≥ 3.0 then "HEALTHY"
  else "AVERAGE"

/-- `getExpectedReturn(valuation, currentPrice)`: a raw division by
`currentPrice`. -/
def getExpectedReturn (valuation : Valuation) (currentPrice : ℚ) : Option ℚ :=
  (pydiv (100 * (valuation.fairValue - currentPrice)) currentPrice).map
    (fun x => customRound x 2)

/-- `getGrowthRate(values)`: the generic growth law over a numeric sequence,
modelled over `ℝ` because of the real n-th root (`math.pow(-, 1/n)`).
`none` models the `ZeroDivisionError` raised by `finalValue / initialValue`
when the sequence starts with 0 (and has length at least 2). -/
noncomputable def getGrowthRate (values : List ℝ) : Option ℝ :=
  if values.length ≤ 1 then some 0
  else
    let finalValue := values.getD (values.length - 1) 0
    let initialValue := values.getD 0 0
    let noOfValues := values.length
    if initialValue = 0 then none
    else
      let isNegative : ℝ := if finalValue < 0 ∨ initialValue < 0 then -1 else 1
      some (isNegative * (|finalValue / initialValue| ^ ((1 : ℝ) / noOfValues) - 1))

/-- `getNpv(futureValue, discountRate, noYrs)`: when `noYrs` is 0 (falsy) the
future value is returned undiscounted; otherwise a raw division by
`(1 + discountRate) ^ noYrs`. -/
def getNpv (futureValue discountRate : ℚ) (noYrs : ℕ) : Option ℚ :=
  if noYrs = 0 then some futureValue
  else pydiv futureValue ((1 + discountRate) ^ noYrs)

/-- `getPeMultipleIv(eps, avgPe, growthRate, discountRate)`. -/
def getPeMultipleIv (eps avgPe growthRate discountRate : ℚ) : Option ℚ :=
  getNpv (eps * avgPe * (1 + growthRate) ^ 5) discountRate 5

/-- `getGrahamIv(eps, growthRate, discountRate)` with
`typicalPEForNoGrowthCompany = 7`, `growthMultiplier = 1`, `rrr = 4.4`. -/
def getGrahamIv (eps growthRate discountRate : ℚ) : Option ℚ := do
  let grahamIv ← pydiv (eps * (7 + 1 * growthRate * 100) * 4.4)
    (discountRate * 100)
  if eps < 0 ∧ growthRate < 0 then return grahamIv * -1 else return grahamIv

/-- The `futureFCFList` loop of `getDcfIv`: `for i in range(noYrs)` append
`prevFCF * (1 + growthRate * declineFactor)` where
`declinePower = i + 1 - 1` (current year number minus 1) and `prevFCF` is the
previous entry (the seed `fcf` on the first iteration). -/
def futureFCFList (fcf growthRate declineRate : ℚ) (noYrs : ℕ) : List ℚ :=
  (List.range noYrs).foldl
    (fun futureFCFL i =>
      let prevFCF := if 0 < i then futureFCFL.getD (i - 1) 0 else fcf
      let declineFactor := (1 - declineRate) ^ (i + 1 - 1)
      futureFCFL ++ [prevFCF * (1 + growthRate * declineFactor)])
    []

/-- `getDcfIv(fcf, cash, liabilities, sharesOutstanding, growthRate,
declineRate, discountRate)`: 10-year DCF with a 12x multiple on the final
discounted year; raw divisions inside `getNpv` and by `sharesOutstanding`
(the `npvList` loop propagates a raised error from any iteration). -/
def getDcfIv (fcf cash liabilities sharesOutstanding growthRate declineRate
    discountRate : ℚ) : Option ℚ := do
  let futureFCFL := futureFCFList fcf growthRate declineRate 10
  let npvList ← (List.range 10).foldl
    (fun acc i => do
      let npvL ← acc
      let npv ← getNpv (futureFCFL.getD i 0) discountRate (i + 1)
      return npvL ++ [npv])
    (some [])
  let totalNpv := npvList.sum
  let year10FcfValue := npvList.reverse.getD 0 0 * 12
  let companyValue := totalNpv + year10FcfValue + cash - liabilities
  pydiv companyValue sharesOutstanding

/-- The `futureEquityPerShareList` loop of `getRoeIv`. -/
def futureEquityPerShareList (equityPerShare growthRate : ℚ) (noYrs : ℕ) :
    List ℚ :=
  (List.range noYrs).foldl
    (fun acc i =>
      let prev := if 0 < i then acc.getD (i - 1) 0 else equityPerShare
      acc ++ [prev * (1 + growthRate)])
    []

/-- The `futureDividendsPerShareList` loop of `getRoeIv` (seeded from the
dividend yield ratio, as the source does). -/
def futureDividendsPerShareList (dividendYield growthRate : ℚ) (noYrs : ℕ) :
    List ℚ :=
  (List.range noYrs).foldl
    (fun acc i =>
      let prev := if 0 < i then acc.getD (i - 1) 0 else dividendYield
      acc ++ [prev * (1 + growthRate)])
    []

/-- `getRoeIv(equity, avgRoe, sharesOutstanding, dividendYield, growthRate,
discountRate)`: raw divisions by `sharesOutstanding` and `discountRate`, and
each dividend is discounted over `i` years (0-based index, so the first is
undiscounted). -/
def getRoeIv (equity avgRoe sharesOutstanding dividendYield growthRate
    discountRate : ℚ) : Option ℚ := do
  let equityPerShare ← pydiv equity sharesOutstanding
  let fe := futureEquityPerShareList equityPerShare growthRate 10
  let fd := futureDividendsPerShareList dividendYield growthRate 10
  let npvDividendList ← (List.range 10).foldl
    (fun acc i => do
      let npvL ← acc
      let npv ← getNpv (fd.getD i 0) discountRate i
      return npvL ++ [npv])
    (some [])
  let year10NetIncome := fe.reverse.getD 0 0 * avgRoe
  let requiredValue ← pydiv year10NetIncome discountRate
  let npvRequiredValue ← getNpv requiredValue discountRate 10
  return npvRequiredValue + npvDividendList.sum

/-- `getLiquidationIv(equity, sharesOutstanding)`: a raw division. -/
def getLiquidationIv (equity sharesOutstanding : ℚ) : Option ℚ :=
  pydiv equity sharesOutstanding

/-- `getAltmanZScore(assets, liabilities, retainedEarnings,
earningsBeforeInterestAndTax, totalRevenue)`: short-circuits to 0 when
liabilities or revenue is falsy, otherwise five raw divisions (the divisions
by `assets` can still raise). -/
def getAltmanZScore (assets liabilities retainedEarnings
    earningsBeforeInterestAndTax totalRevenue : ℚ) : Option ℚ :=
  let equity := getEquity assets liabilities
  if liabilities = 0 ∨ totalRevenue = 0 then some 0
  else do
    let t1 ← pydiv (1.2 * equity) assets
    let t2 ← pydiv (1.4 * retainedEarnings) assets
    let t3 ← pydiv (3.3 * earningsBeforeInterestAndTax) assets
    let t4 ← pydiv (0.6 * equity) liabilities
    let t5 ← pydiv (1 * totalRevenue) assets
    return t1 + t2 + t3 + t4 + t5

/-- First-match lookup of a key in an association list (a Python dict access
`statements[date]` on distinct keys). -/
def lookupKey {α : Type} (k : String) : List (String × α) → Option α
  | [] => none
  | kv :: rest => if kv.1 = k then some kv.2 else lookupKey k rest

/-- The `latestDate` scan of `getLatestValidFinancialStatement`:
`for date in statements: latestDate = utils.getLargest(date, latestDate)`
starting from `""`. -/
def maxKey {α : Type} (statements : List (String × α)) : String :=
  statements.foldl (fun latestDate kv => getLargest kv.1 latestDate) ""

/-- `del statements[latestDate]` on an association list with distinct keys. -/
def removeKey {α : Type} (k : String) (statements : List (String × α)) :
    List (String × α) :=
  statements.filter (fun kv => decide (kv.1 ≠ k))

/-- `getLatestValidFinancialStatement(statements, validator)`, fuelled so the
recursion is structural: each step either answers or removes the latest key
and retries, so `statements.length` fuel always suffices.  The result pairs
the Python return value with the working set left after the destructive
`del` operations. -/
def getLVFSAux {α : Type} (fuel : ℕ) (statements : List (String × α))
    (validator : α → Bool) : Option α × List (String × α) :=
  match fuel with
  | 0 => (none, statements)
  | n + 1 =>
    let latestDate := maxKey statements
    if latestDate = "" then (none, statements)
    else
      match lookupKey latestDate statements with
      | none => (none, statements)
      | some statement =>
        if validator statement then (some statement, statements)
        else getLVFSAux n (removeKey latestDate statements) validator

/-- `getLatestValidFinancialStatement(statements, validator)`. -/
def getLatestValidFinancialStatement {α : Type}
    (statements : List (String × α)) (validator : α → Bool) :
    Option α × List (String × α) :=
  getLVFSAux statements.length statements validator

/-- `validateBalanceSheet(balanceSheet)`: `None` or any falsy (zero) required
field makes the sheet invalid. -/
def validateBalanceSheet : Option BalanceSheet → Bool
  | none => false
  | some b =>
    if b.assets = 0 ∨ b.currentAssets = 0 ∨ b.liabilities = 0
        ∨ b.currentLiabilities = 0 ∨ b.retainedEarnings = 0 ∨ b.cash = 0
    then false else true

/-- Insertion step of the date sort used by `getHistoricalValues`. -/
def insertByDate (kv : String × ℚ) : List (String × ℚ) → List (String × ℚ)
  | [] => [kv]
  | x :: xs => if strLe kv.1 x.1 then kv :: x :: xs else x :: insertByDate kv xs

/-- Sort date/value pairs chronologically (ascending ISO date). -/
def sortByDate (l : List (String × ℚ)) : List (String × ℚ) :=
  l.foldr insertByDate []

/-- Modelled from the spec: `utils.getHistoricalValuesFromFinancialStatements`
is imported by `evaluate.py` but missing from the sources; per the spec it
returns the `n` most recent quarterly values of a field as a chronologically
ordered sequence of date/value pairs, and when fewer data points exist it
returns however many are available.  (The Python field-name string becomes a
field selector function.) -/
def getHistoricalValues {σ : Type} (statements : List (String × σ))
    (field : σ → ℚ) (n : ℕ) : List (String × ℚ) :=
  let dated := statements.map (fun kv => (kv.1, field kv.2))
  let sorted := sortByDate dated
  sorted.drop (sorted.length - n)

/-- `getStatementYears(stock)`: `min` of the three history lengths divided by
4 (floor).  The balance-sheet history is passed explicitly because the Python
call reads `stock.financialStatements.balanceSheets` after
`getLatestValidFinancialStatement` has destructively pruned it. -/
def getStatementYears (incomeStatements : List (String × IncomeStatement))
    (balanceSheets : List (String × BalanceSheet))
    (cashFlowStatements : List (String × CashFlowStatement)) : ℕ :=
  min (min (incomeStatements.length / 4) (balanceSheets.length / 4))
    (cashFlowStatements.length / 4)

/-- `getAvgPe(stock)`: per-quarter P/E values over the lookback window,
averaged and multiplied by 4.  The Python reads the class attribute
`ValuationModel.yearsForEarningsCalcs`; since models.py is not in the
sources, that default is taken as the `yearsForEarningsCalcs` parameter.
(The final raw division cannot raise: the zero-length case returns first.) -/
def getAvgPe (stock : Stock) (yearsForEarningsCalcs : ℕ) : ℚ :=
  let historicalNetIncomes := getHistoricalValues
    stock.financialStatements.incomeStatements (fun s => s.netIncome)
    (yearsForEarningsCalcs * 4)
  let peList := historicalNetIncomes.map
    (fun item => getPe stock.currentPrice (getEps item.2 stock.sharesOutstanding))
  if peList.length = 0 then 0
  else 4 * peList.sum / (peList.length : ℚ)

/-- `getDividendYieldForYear(stock)`: trailing-year dividends over the last 4
quarters, then the dividend-yield formula. -/
def getDividendYieldForYear (stock : Stock) : ℚ :=
  let historicalDividends := getHistoricalValues
    stock.financialStatements.cashFlowStatements (fun s => s.dividendsPaid) 4
  let dividendsPaidInLastYear :=
    historicalDividends.foldl (fun acc item => acc + item.2) 0
  getDividendYield dividendsPaidInLastYear stock.sharesOutstanding
    stock.currentPrice

/-- `getFcfForYear(stock)`: per-quarter `getFcf` over the last 4 quarters,
summed. -/
def getFcfForYear (stock : Stock) : ℚ :=
  let historicalCashFromOperations := getHistoricalValues
    stock.financialStatements.cashFlowStatements
    (fun s => s.cashFromOperations) 4
  let historicalCapex := getHistoricalValues
    stock.financialStatements.cashFlowStatements (fun s => s.capex) 4
  (List.range historicalCashFromOperations.length).foldl
    (fun acc i =>
      acc + getFcf (historicalCashFromOperations.getD i ("", 0)).2
        (historicalCapex.getD i ("", 0)).2)
    0

/-- `getNetIncomeAvg(stock, years)`: sum of the last `years * 4` quarterly net
incomes, divided (raw division) by `years`. -/
def getNetIncomeAvg (incomeStatements : List (String × IncomeStatement))
    (years : ℕ) : Option ℚ :=
  let historicalNetIncomes := getHistoricalValues incomeStatements
    (fun s => s.netIncome) (years * 4)
  let totalNetIncome :=
    historicalNetIncomes.foldl (fun acc item => acc + item.2) 0
  pydiv totalNetIncome (years : ℚ)

/-- `getTotalRevenueForYear(stock)`. -/
def getTotalRevenueForYear (stock : Stock) : ℚ :=
  let historicalTotalRevenue := getHistoricalValues
    stock.financialStatements.incomeStatements (fun s => s.totalRevenue) 4
  historicalTotalRevenue.foldl (fun acc item => acc + item.2) 0

/-- Python numeric `or`: the left operand unless it is falsy (0). -/
def pyOr (a b : ℚ) : ℚ := if a = 0 then b else a

/-- Python `bool and number`: `False` is falsy (numerically 0) when the left
operand is `False`, otherwise the right operand. -/
def pyAnd (b : Bool) (x : ℚ) : ℚ := if b then x else 0

/-- Python `someInt in listOfDatedValues`: an integer is never equal to a
date/value pair, so the membership test is always `False`. -/
def intMemPairs (_i : ℤ) (_l : List (String × ℚ)) : Bool := false

/-- `getEarningsBeforeInterestAndTaxForYear(stock)`.  The quarterly
expression in the source parses (by Python precedence, `in` binding tighter
than `and`/`or`) as
`A[i] and (A[i].value or ((0-i) in B and abs(B[i].value)) or ((0+i) in C and abs(C[i].value)) or 0)`:
`A[i]` is a non-empty record, hence truthy, so `and` yields its right
operand; both `in` tests compare an integer against date/value pairs and are
always `False`, so both inner `and`s are falsy and each quarter contributes
exactly its `incomeBeforeTax` value (or 0 when that is falsy). -/
def getEarningsBeforeInterestAndTaxForYear
    (incomeStatements : List (String × IncomeStatement)) : ℚ :=
  let historicalIncomeBeforeTax := getHistoricalValues incomeStatements
    (fun s => s.incomeBeforeTax) 4
  let historicalInterestExpense := getHistoricalValues incomeStatements
    (fun s => s.interestExpense) 4
  let historicalInterestIncome := getHistoricalValues incomeStatements
    (fun s => s.interestIncome) 4
  (List.range historicalIncomeBeforeTax.length).foldl
    (fun acc i =>
      let quarter :=
        pyOr (historicalIncomeBeforeTax.getD i ("", 0)).2
          (pyOr (pyAnd (intMemPairs ((0 : ℤ) - i) historicalInterestExpense)
              |(historicalInterestExpense.getD i ("", 0)).2|)
            (pyOr (pyAnd (intMemPairs ((0 : ℤ) + i) historicalInterestIncome)
                |(historicalInterestIncome.getD i ("", 0)).2|)
              0))
      acc + quarter)
    0

/-- `getValuation(stock, model)`.  `growthRate` stands for
`getNetIncomeGrowthRate(stock, model)` and `priceGrowthRate` for
`getPriceGrowthRate(stock)`: both depend on `datetime.now()` and (for the
former) the external trend estimator, so they are parameters of the
embedding.  `none` models an uncaught `ZeroDivisionError`; the
invalid-balance-sheet path returns the default `Valuation()` as the source
does. -/
def getValuation (stock : Stock) (model : ValuationModel)
    (growthRate priceGrowthRate : ℚ) : Option Valuation :=
  let sel := getLatestValidFinancialStatement
    stock.financialStatements.balanceSheets
    (fun b => validateBalanceSheet (some b))
  match sel.1 with
  | none => some defaultValuation
  | some latestBalanceSheet =>
    if validateBalanceSheet (some latestBalanceSheet) = false
    then some defaultValuation
    else do
      let netIncomeAvg ← getNetIncomeAvg
        stock.financialStatements.incomeStatements model.yearsForEarningsCalcs
      let assets := latestBalanceSheet.assets
      let liabilities := latestBalanceSheet.liabilities
      let equity := getEquity assets liabilities
      let roe := getRoe netIncomeAvg equity
      let roa := getRoa netIncomeAvg assets
      let dividendYield := getDividendYieldForYear stock
      let fcf := getFcfForYear stock
      let marketCap := getMarketCap stock.sharesOutstanding stock.currentPrice
      let eps := getEps netIncomeAvg stock.sharesOutstanding
      let pe := getPe stock.currentPrice eps
      let peg := getPeg pe growthRate
      let totalRevenue := getTotalRevenueForYear stock
      let earningsBeforeInterestAndTax := getEarningsBeforeInterestAndTaxForYear
        stock.financialStatements.incomeStatements
      let statementYears := getStatementYears
        stock.financialStatements.incomeStatements sel.2
        stock.financialStatements.cashFlowStatements
      let pb := customRound
        (getPb stock.currentPrice equity stock.sharesOutstanding) 2
      let blendedMultiplier := pe * pb
      let currentLiabilities := customRound latestBalanceSheet.currentLiabilities 2
      let altmanZScore ← getAltmanZScore assets liabilities
        latestBalanceSheet.retainedEarnings earningsBeforeInterestAndTax
        totalRevenue
      let peMultipleIv ← getPeMultipleIv eps pe growthRate model.discountRate
      let grahamIv ← getGrahamIv eps growthRate model.discountRate
      let dcfIv ← getDcfIv fcf latestBalanceSheet.cash currentLiabilities
        stock.sharesOutstanding growthRate model.declineRate model.discountRate
      let roeIv ← getRoeIv equity roe stock.sharesOutstanding dividendYield
        growthRate model.discountRate
      let liquidationIv ← getLiquidationIv equity stock.sharesOutstanding
      return {
        dividendYield := customRound dividendYield 2
        marketCap := customRound marketCap 2
        roe := customRound roe 2
        roa := customRound roa 2
        growthRate := customRound growthRate 2
        priceGrowthRate := customRound priceGrowthRate 2
        dte := customRound (getDte currentLiabilities equity) 2
        cr := customRound (getCr assets currentLiabilities) 2
        eps := customRound eps 2
        pe := customRound pe 2
        peg := customRound peg 2
        pb := customRound pb 2
        blendedMultiplier := customRound blendedMultiplier 2
        fcf := customRound fcf 2
        altmanZScore := customRound altmanZScore 2
        statementYears := statementYears
        peMultipleIv := customRound peMultipleIv 2
        grahamIv := customRound grahamIv 2
        dcfIv := customRound dcfIv 2
        roeIv := customRound roeIv 2
        liquidationIv := customRound liquidationIv 2 }

/-- `getFairValue(valuation)`: the PE-multiple intrinsic value is the
headline fair value. -/
def getFairValue (valuation : Valuation) : ℚ := valuation.peMultipleIv

/-- A concrete valid balance sheet (the spec's end-to-end example sheet). -/
def sampleBalanceSheet : BalanceSheet :=
  { assets := 1000
    currentAssets := 500
    liabilities := 400
    currentLiabilities := 200
    retainedEarnings := 100
    cash := 50 }

/-- A concrete stock with four quarters of history and one balance sheet. -/
def sampleStock : Stock :=
  { symbol := "TEST"
    sharesOutstanding := 100
    currentPrice := 20
    financialStatements :=
      { incomeStatements :=
          [("2020-03-31",
             { netIncome := 10, totalRevenue := 100, incomeBeforeTax := 10 }),
           ("2020-06-30",
             { netIncome := 20, totalRevenue := 100, incomeBeforeTax := 20 }),
           ("2020-09-30",
             { netIncome := 30, totalRevenue := 100, incomeBeforeTax := 30 }),
           ("2020-12-31",
             { netIncome := 40, totalRevenue := 100, incomeBeforeTax := 40 })]
        balanceSheets := [("2020-12-31", sampleBalanceSheet)]
        cashFlowStatements :=
          [("2020-03-31", { cashFromOperations := 10, capex := 2 }),
           ("2020-06-30", { cashFromOperations := 10, capex := 2 }),
           ("2020-09-30", { cashFromOperations := 10, capex := 2 }),
           ("2020-12-31", { cashFromOperations := 10, capex := 2 })] } }

/-- A concrete model configuration: one year of earnings history, a 5%
discount rate and a 5% decline rate. -/
def sampleModel : ValuationModel :=
  { yearsForEarningsCalcs := 1
    discountRate := 1 / 20
    declineRate := 1 / 20 }

/-- A one-quarter income-statement history with nonzero interest fields. -/
def singleQuarterIncome : List (String × IncomeStatement) :=
  [("2020-03-31",
     { incomeBeforeTax := 100, interestExpense := 10, interestIncome := 5 })]

/-- A valuation with a zero price-to-book ratio but every other ratio in a
comfortable range (note the independently set positive blended multiplier). -/
def pbZeroValuation : Valuation :=
  { roe := 1
    growthRate := 1
    dte := 0
    cr := 10
    eps := 1
    pe := 1
    peg := 1 / 2
    pb := 0
    blendedMultiplier := 1
    altmanZScore := 5
    statementYears := 10 }

/-- A lenient threshold configuration satisfied by `pbZeroValuation`. -/
def lenientModel : ValuationModel :=
  { minRoe := 0
    minGrowthRate := 0
    maxDte := 1
    minCr := 1
    minEps := 0
    maxPe := 10
    maxPeg := 10
    maxPb := 10
    maxBlendedMultiplier := 10
    minAltmanZScore := 0
    minStatementYears := 1 }

/-- A two-entry statement history whose later-dated entry is invalid for the
validator `fun x => decide (x < 2)` while the earlier one is valid. -/
def sampleHistory : List (String × ℚ) :=
  [("2020-03-31", 1), ("2020-06-30", 2)]

/-- C6: for every valuation, model and current price with the current price
equal to `valuation.fairValue`, `getInstruction` returns `"SELL"`, whatever
the viability verdict: the overvalued rule is checked first and its
comparison `currentPrice >= fairValue` is inclusive. -/
theorem getInstruction_at_fair_value_is_sell (valuation : Valuation)
    (model : ValuationModel) :
    getInstruction valuation valuation.fairValue model = "SELL" := by
  simp [getInstruction]

/-- C9: for every valuation, current price and model, `getInstruction`
returns `"BUY"` or `"SELL"`; the `"HOLD"` branch is unreachable because a
viable stock whose price is not `>= fairValue` has price `< fairValue`,
hence `<= fairValue`, which triggers the BUY branch. -/
theorem getInstruction_never_hold (valuation : Valuation) (currentPrice : ℚ)
    (model : ValuationModel) :
    getInstruction valuation currentPrice model = "SELL" ∨
      getInstruction valuation currentPrice model = "BUY" := by
  simp only [getInstruction]
  split_ifs with h1 h2
  · exact Or.inl rfl
  · exact Or.inr rfl
  · push_neg at h1
    exact absurd ⟨Bool.ne_false_iff.mp h1.1, le_of_lt h1.2⟩ h2

/-- C5 counterexample: a valuation with `pb = 0` on which `getViability`
returns `True` (every other ratio, including the independently stored
blended multiplier, passes the lenient thresholds), refuting the claim that
a zero P/B always makes the stock non-viable. -/
theorem getViability_pb_zero_counterexample :
    pbZeroValuation.pb = 0 ∧ getViability pbZeroValuation lenientModel = true := by
  constructor
  · norm_num [pbZeroValuation]
  · norm_num [getViability, pbZeroValuation, lenientModel]

/-- C5 amended: the price-to-book check of `getViability` only rejects
`pb > maxPb` and `pb < 0`, so `pb = 0` passes it (the interval is
`[0, maxPb]`, not `(0, maxPb]`): a valuation with `pb = 0` is viable
whenever `maxPb` is nonnegative and every other check passes. -/
theorem getViability_pb_zero_passes (valuation : Valuation)
    (model : ValuationModel)
    (hpb : valuation.pb = 0) (hmaxPb : 0 ≤ model.maxPb)
    (hroe : model.minRoe ≤ valuation.roe)
    (hgrowth : model.minGrowthRate ≤ valuation.growthRate)
    (hdte : valuation.dte ≤ model.maxDte) (hdte0 : 0 ≤ valuation.dte)
    (hcr : model.minCr ≤ valuation.cr) (heps : model.minEps ≤ valuation.eps)
    (hpe : valuation.pe ≤ model.maxPe) (hpe0 : 0 ≤ valuation.pe)
    (hpeg : valuation.peg ≤ model.maxPeg) (hpeg0 : 0 ≤ valuation.peg)
    (hpegNz : valuation.peg ≠ 0)
    (hbl : valuation.blendedMultiplier ≤ model.maxBlendedMultiplier)
    (hblPos : 0 < valuation.blendedMultiplier)
    (haltman : model.minAltmanZScore ≤ valuation.altmanZScore)
    (hyears : model.minStatementYears ≤ valuation.statementYears) :
    getViability valuation model = true := by
  have hC : ¬(valuation.roe < model.minRoe
      ∨ valuation.growthRate < model.minGrowthRate
      ∨ valuation.dte > model.maxDte
      ∨ valuation.dte < 0
      ∨ valuation.dte < 0
      ∨ valuation.cr < model.minCr
      ∨ valuation.eps < model.minEps
      ∨ valuation.pe > model.maxPe
      ∨ valuation.pe < 0
      ∨ valuation.peg > model.maxPeg
      ∨ valuation.peg < 0
      ∨ valuation.peg = 0
      ∨ valuation.pb > model.maxPb
      ∨ valuation.pb < 0
      ∨ valuation.blendedMultiplier > model.maxBlendedMultiplier
      ∨ valuation.blendedMultiplier ≤ 0
      ∨ valuation.blendedMultiplier = 0
      ∨ valuation.altmanZScore < model.minAltmanZScore
      ∨ valuation.statementYears < model.minStatementYears) := by
    push_neg
    refine ⟨hroe, hgrowth, hdte, hdte0, hdte0, hcr, heps, hpe, hpe0, hpeg,
      hpeg0, hpegNz, ?_, ?_, hbl, hblPos, ne_of_gt hblPos, haltman, hyears⟩
    · rw [hpb]; exact hmaxPb
    · rw [hpb]
  simp only [getViability, if_neg hC]

/-- C5 amended witness: the amended theorem applied to the concrete
`pbZeroValuation` under `lenientModel`. -/
theorem getViability_pb_zero_passes_witness :
    getViability pbZeroValuation lenientModel = true :=
  getViability_pb_zero_passes pbZeroValuation lenientModel
    (by norm_num [pbZeroValuation]) (by norm_num [lenientModel])
    (by norm_num [pbZeroValuation, lenientModel])
    (by norm_num [pbZeroValuation, lenientModel])
    (by norm_num [pbZeroValuation, lenientModel])
    (by norm_num [pbZeroValuation])
    (by norm_num [pbZeroValuation, lenientModel])
    (by norm_num [pbZeroValuation, lenientModel])
    (by norm_num [pbZeroValuation, lenientModel])
    (by norm_num [pbZeroValuation])
    (by norm_num [pbZeroValuation, lenientModel])
    (by norm_num [pbZeroValuation])
    (by norm_num [pbZeroValuation])
    (by norm_num [pbZeroValuation, lenientModel])
    (by norm_num [pbZeroValuation])
    (by norm_num [pbZeroValuation, lenientModel])
    (by norm_num [pbZeroValuation, lenientModel])

/-- C4 counterexample: three engine divisions that do not go through
`safeDivide`: with a zero divisor each propagates a `ZeroDivisionError`
(modelled as `none`) instead of returning a value/0 as claimed:
`getAltmanZScore` with `assets = 0` (nonzero liabilities and revenue),
`getLiquidationIv` with `sharesOutstanding = 0`, and `getExpectedReturn`
with `currentPrice = 0`. -/
theorem raw_divisions_counterexample :
    getAltmanZScore 0 2 1 1 1 = none ∧
    getLiquidationIv 1 0 = none ∧
    getExpectedReturn defaultValuation 0 = none := by
  refine ⟨?_, ?_, ?_⟩
  · norm_num [getAltmanZScore, getEquity, pydiv, Option.bind_eq_bind']
  · norm_num [getLiquidationIv, pydiv]
  · norm_num [getExpectedReturn, pydiv]

/-- C4 amended: divisions routed through `utils.safeDivide` return 0 on a
zero divisor, but `getAltmanZScore`, `getLiquidationIv` and
`getExpectedReturn` use raw division and propagate a fault (`none`) instead:
with `assets = 0` (and nonzero liabilities and revenue), with
`sharesOutstanding = 0`, and with `currentPrice = 0` respectively. -/
theorem safeDivide_zero_and_raw_division_faults :
    (∀ a : ℚ, safeDivide a 0 = 0) ∧
    (∀ liabilities retainedEarnings ebit totalRevenue : ℚ,
      liabilities ≠ 0 → totalRevenue ≠ 0 →
      getAltmanZScore 0 liabilities retainedEarnings ebit totalRevenue = none) ∧
    (∀ equity : ℚ, getLiquidationIv equity 0 = none) ∧
    (∀ valuation : Valuation, getExpectedReturn valuation 0 = none) := by
  refine ⟨fun a => by norm_num [safeDivide], ?_, ?_, ?_⟩
  · intro liabilities retainedEarnings ebit totalRevenue hl hr
    rw [getAltmanZScore, if_neg (by push_neg; exact ⟨hl, hr⟩)]
    norm_num [pydiv, Option.bind_eq_bind']
  · intro equity
    norm_num [getLiquidationIv, pydiv]
  · intro valuation
    norm_num [getExpectedReturn, pydiv]

/-- C4 amended witness: the amended theorem applied at concrete inputs. -/
theorem safeDivide_zero_and_raw_division_faults_witness :
    safeDivide 7 0 = 0 ∧ getAltmanZScore 0 3 1 1 1 = none ∧
    getLiquidationIv 5 0 = none ∧ getExpectedReturn defaultValuation 0 = none :=
  ⟨safeDivide_zero_and_raw_division_faults.1 7,
    safeDivide_zero_and_raw_division_faults.2.1 3 1 1 1 (by norm_num)
      (by norm_num),
    safeDivide_zero_and_raw_division_faults.2.2.1 5,
    safeDivide_zero_and_raw_division_faults.2.2.2 defaultValuation⟩

/-- C10: in the `getDcfIv` projection, the decline factor of projection year
`i` (years counted 1 to 10) is `(1 - declineRate) ^ (i - 1)`: the first
projected year's FCF is `fcf * (1 + growthRate)` exactly (no decline), and
each later year's FCF is the previous year's times
`(1 + growthRate * (1 - declineRate) ^ (i - 1))`. -/
theorem futureFCFList_decline_law :
    (∀ fcf growthRate declineRate : ℚ,
      (futureFCFList fcf growthRate declineRate 10).getD 0 0 =
        fcf * (1 + growthRate)) ∧
    (∀ fcf growthRate declineRate : ℚ, ∀ i : ℕ, 2 ≤ i → i ≤ 10 →
      (futureFCFList fcf growthRate declineRate 10).getD (i - 1) 0 =
        (futureFCFList fcf growthRate declineRate 10).getD (i - 2) 0 *
          (1 + growthRate * (1 - declineRate) ^ (i - 1))) := by
  constructor
  · intro fcf growthRate declineRate
    have h : (futureFCFList fcf growthRate declineRate 10).getD 0 0 =
        fcf * (1 + growthRate * (1 - declineRate) ^ 0) := rfl
    rw [h]; ring
  · intro fcf growthRate declineRate i h2 h10
    interval_cases i <;> rfl

/-- C10 witness: the projection law at a concrete input and year 2. -/
theorem futureFCFList_decline_law_witness :
    (futureFCFList 1 1 (1 / 2) 10).getD 1 0 =
      (futureFCFList 1 1 (1 / 2) 10).getD 0 0 *
        (1 + 1 * (1 - 1 / 2) ^ (2 - 1)) :=
  futureFCFList_decline_law.2 1 1 (1 / 2) 2 (by norm_num) (by norm_num)

/-- C3 (code evaluation at the failing input): on a single quarter with
`incomeBeforeTax = 100`, `interestExpense = 10`, `interestIncome = 5` the
yearly EBIT aggregate is 100 — the interest terms never contribute, because
the Python `and`/`or`/`in` expression collapses to the `incomeBeforeTax`
value — while the claimed formula gives `100 + |10| - |5| = 105`. -/
theorem ebit_ignores_interest_at_failing_input :
    getEarningsBeforeInterestAndTaxForYear singleQuarterIncome = 100 ∧
    (100 : ℚ) ≠ 100 + |(10 : ℚ)| - |(5 : ℚ)| := by
  constructor
  · have hr : List.range 1 = [0] := rfl
    norm_num [getEarningsBeforeInterestAndTaxForYear, getHistoricalValues,
      sortByDate, insertByDate, singleQuarterIncome, pyOr, pyAnd, intMemPairs,
      hr, List.getD]
  · norm_num

/-- C7: the generic growth law: length at most 1 gives growth 0; otherwise
(with a nonzero initial value, which would raise in Python) the result is
`sign * (|final/initial| ^ (1/n) - 1)` with `sign = -1` iff the initial or
final value is negative, and the exponent denominator is the count of
values `n` (not `n - 1`); in particular
`getGrowthRate [100, 200] = 2 ^ (1/2) - 1 ≈ 0.4142`. -/
theorem getGrowthRate_law :
    (∀ values : List ℝ, values.length ≤ 1 → getGrowthRate values = some 0) ∧
    (∀ values : List ℝ, 2 ≤ values.length → values.getD 0 0 ≠ 0 →
      getGrowthRate values = some
        ((if values.getD (values.length - 1) 0 < 0 ∨ values.getD 0 0 < 0
            then (-1 : ℝ) else 1) *
          (|values.getD (values.length - 1) 0 / values.getD 0 0| ^
              ((1 : ℝ) / (values.length : ℝ)) - 1))) ∧
    getGrowthRate [(100 : ℝ), 200] = some ((2 : ℝ) ^ ((1 : ℝ) / 2) - 1) ∧
    |((2 : ℝ) ^ ((1 : ℝ) / 2) - 1) - 0.4142| < 0.0001 := by
  have hsqrt : (2 : ℝ) ^ ((1 : ℝ) / 2) = Real.sqrt 2 :=
    (Real.sqrt_eq_rpow 2).symm
  have hsq : Real.sqrt 2 ^ 2 = 2 := Real.sq_sqrt (by norm_num)
  have hnn : 0 ≤ Real.sqrt 2 := Real.sqrt_nonneg 2
  refine ⟨?_, ?_, ?_, ?_⟩
  · intro values h
    simp [getGrowthRate, h]
  · intro values h2 h0
    simp only [getGrowthRate, if_neg (show ¬values.length ≤ 1 by omega),
      if_neg h0]
  · norm_num [getGrowthRate, List.getD]
  · rw [hsqrt, abs_sub_lt_iff]
    constructor <;> nlinarith [hsq, hnn]

/-- C7 witness: the growth law applied to the concrete sequence
`[100, 200]`. -/
theorem getGrowthRate_law_witness :
    getGrowthRate [(100 : ℝ), 200] = some
      ((if (200 : ℝ) < 0 ∨ (100 : ℝ) < 0 then (-1 : ℝ) else 1) *
        (|(200 : ℝ) / 100| ^ ((1 : ℝ) / 2) - 1)) := by
  have h := getGrowthRate_law.2.1 [(100 : ℝ), 200] (by norm_num)
    (by norm_num [List.getD])
  norm_num [List.getD] at h ⊢
  exact h

theorem char_toNat_inj {c d : Char} (h : c.toNat = d.toNat) : c = d := by
  have h2 : Char.ofNat c.toNat = Char.ofNat d.toNat := congrArg Char.ofNat h
  rwa [Char.ofNat_toNat, Char.ofNat_toNat] at h2

theorem strLtB_nil_right (a : List Char) : strLtB a [] = false := by
  cases a <;> rfl

theorem strLtB_irrefl (a : List Char) : strLtB a a = false := by
  induction a with
  | nil => rfl
  | cons c cs ih => simp [strLtB, ih]

theorem strLtB_trans {a b c : List Char} (hab : strLtB a b = true)
    (hbc : strLtB b c = true) : strLtB a c = true := by
  induction a generalizing b c with
  | nil =>
    cases c with
    | nil => rw [strLtB_nil_right] at hbc; simp at hbc
    | cons cc cs => rfl
  | cons ca as ih =>
    cases b with
    | nil => rw [strLtB_nil_right] at hab; simp at hab
    | cons cb bs =>
      cases c with
      | nil => rw [strLtB_nil_right] at hbc; simp at hbc
      | cons cc cs =>
        simp only [strLtB] at hab hbc ⊢
        by_cases h1 : ca.toNat < cb.toNat <;> by_cases h2 : cb.toNat < cc.toNat
        · rw [if_pos (Nat.lt_trans h1 h2)]
        · rw [if_neg h2] at hbc
          by_cases h3 : cc.toNat < cb.toNat
          · rw [if_pos h3] at hbc; simp at hbc
          · have heq : cb.toNat = cc.toNat :=
              Nat.le_antisymm (Nat.le_of_not_lt h3) (Nat.le_of_not_lt h2)
            rw [if_pos (heq ▸ h1)]
        · rw [if_neg h1] at hab
          by_cases h3 : cb.toNat < ca.toNat
          · rw [if_pos h3] at hab; simp at hab
          · have heq : ca.toNat = cb.toNat :=
              Nat.le_antisymm (Nat.le_of_not_lt h3) (Nat.le_of_not_lt h1)
            rw [if_pos (Nat.lt_of_le_of_lt (Nat.le_of_eq heq) h2)]
        · rw [if_neg h1] at hab
          rw [if_neg h2] at hbc
          by_cases h3 : cb.toNat < ca.toNat
          · rw [if_pos h3] at hab; simp at hab
          · rw [if_neg h3] at hab
            by_cases h4 : cc.toNat < cb.toNat
            · rw [if_pos h4] at hbc; simp at hbc
            · rw [if_neg h4] at hbc
              have e1 : ca.toNat = cb.toNat :=
                Nat.le_antisymm (Nat.le_of_not_lt h3) (Nat.le_of_not_lt h1)
              have e2 : cb.toNat = cc.toNat :=
                Nat.le_antisymm (Nat.le_of_not_lt h4) (Nat.le_of_not_lt h2)
              have hac : ¬ca.toNat < cc.toNat := by
                rw [e1, e2]; exact Nat.lt_irrefl _
              have hca : ¬cc.toNat < ca.toNat := by
                rw [e1, e2]; exact Nat.lt_irrefl _
              rw [if_neg hac, if_neg hca]
              exact ih hab hbc

theorem strLtB_antisymm : ∀ {a b : List Char}, strLtB a b = false →
    strLtB b a = false → a = b := by
  intro a
  induction a with
  | nil =>
    intro b h1 _
    cases b with
    | nil => rfl
    | cons cb bs => simp [strLtB] at h1
  | cons ca as ih =>
    intro b h1 h2
    cases b with
    | nil => simp [strLtB] at h2
    | cons cb bs =>
      simp only [strLtB] at h1 h2
      by_cases hx : ca.toNat < cb.toNat
      · rw [if_pos hx] at h1; simp at h1
      · by_cases hy : cb.toNat < ca.toNat
        · rw [if_pos hy] at h2; simp at h2
        · rw [if_neg hx, if_neg hy] at h1
          rw [if_neg hy, if_neg hx] at h2
          have hc : ca = cb := char_toNat_inj
            (Nat.le_antisymm (Nat.le_of_not_lt hy) (Nat.le_of_not_lt hx))
          rw [hc, ih h1 h2]

theorem strLt_irrefl (a : String) : strLt a a = false := strLtB_irrefl a.data

theorem strLt_trans {a b c : String} (hab : strLt a b = true)
    (hbc : strLt b c = true) : strLt a c = true := strLtB_trans hab hbc

theorem strLt_antisymm {a b : String} (h1 : strLt a b = false)
    (h2 : strLt b a = false) : a = b := by
  cases a with
  | mk da =>
    cases b with
    | mk db => exact congrArg String.mk (strLtB_antisymm h1 h2)

theorem strLt_asymm {a b : String} (h : strLt a b = true) :
    strLt b a = false := by
  rcases Bool.eq_false_or_eq_true (strLt b a) with h0 | h0
  · have := strLt_trans h h0
    rw [strLt_irrefl] at this
    simp at this
  · exact h0

theorem notLt_trans {a b c : String} (h1 : strLt b a = false)
    (h2 : strLt c b = false) : strLt c a = false := by
  cases hca : strLt c a
  · rfl
  · exfalso
    cases hab : strLt a b
    · have hba : a = b := strLt_antisymm hab h1
      rw [hba] at hca
      rw [h2] at hca
      simp at hca
    · have h3 := strLt_trans hca hab
      rw [h2] at h3
      simp at h3

theorem strLt_empty_right (a : String) : strLt a "" = false :=
  strLtB_nil_right a.data

theorem strLt_empty_left {a : String} (h : a ≠ "") : strLt "" a = true := by
  cases a with
  | mk da =>
    cases da with
    | nil => exact absurd rfl h
    | cons c cs => rfl

theorem getLargest_eq_or (a b : String) :
    getLargest a b = a ∨ getLargest a b = b := by
  unfold getLargest
  split_ifs <;> simp

theorem le_getLargest_left {a : String} (b : String) (ha : a ≠ "") :
    strLt (getLargest a b) a = false := by
  unfold getLargest
  split_ifs with h1 h2
  · exact absurd h1 ha
  · exact strLt_asymm h2
  · exact strLt_irrefl a

theorem le_getLargest_right (a b : String) :
    strLt (getLargest a b) b = false := by
  unfold getLargest
  split_ifs with h1 h2
  · exact strLt_irrefl b
  · exact strLt_irrefl b
  · exact Bool.eq_false_iff.mpr h2

theorem foldl_getLargest_le_acc {α : Type} (l : List (String × α))
    (acc : String) :
    strLt (l.foldl (fun latestDate kv => getLargest kv.1 latestDate) acc)
      acc = false := by
  induction l generalizing acc with
  | nil => exact strLt_irrefl acc
  | cons x xs ih =>
    simp only [List.foldl_cons]
    exact notLt_trans (le_getLargest_right x.1 acc) (ih (getLargest x.1 acc))

theorem foldl_getLargest_le_key {α : Type} (l : List (String × α))
    (acc : String) :
    ∀ kv ∈ l, kv.1 ≠ "" →
      strLt (l.foldl (fun latestDate kv => getLargest kv.1 latestDate) acc)
        kv.1 = false := by
  induction l generalizing acc with
  | nil => intro kv h; simp at h
  | cons x xs ih =>
    intro kv hmem hne
    simp only [List.foldl_cons]
    rcases List.mem_cons.mp hmem with heq | hmem2
    · subst heq
      exact notLt_trans (le_getLargest_left acc hne)
        (foldl_getLargest_le_acc xs _)
    · exact ih (getLargest x.1 acc) kv hmem2 hne

theorem foldl_getLargest_mem {α : Type} (l : List (String × α))
    (acc : String) :
    l.foldl (fun latestDate kv => getLargest kv.1 latestDate) acc = acc ∨
      ∃ kv ∈ l,
        l.foldl (fun latestDate kv => getLargest kv.1 latestDate) acc =
          kv.1 := by
  induction l generalizing acc with
  | nil => exact Or.inl rfl
  | cons x xs ih =>
    simp only [List.foldl_cons]
    rcases ih (getLargest x.1 acc) with h | ⟨kv, hkv, hfold⟩
    · rcases getLargest_eq_or x.1 acc with h2 | h2
      · exact Or.inr ⟨x, List.mem_cons_self x xs, by rw [h, h2]⟩
      · exact Or.inl (by rw [h, h2])
    · exact Or.inr ⟨kv, List.mem_cons_of_mem x hkv, hfold⟩

theorem maxKey_le {α : Type} (l : List (String × α)) :
    ∀ kv ∈ l, kv.1 ≠ "" → strLt (maxKey l) kv.1 = false :=
  foldl_getLargest_le_key l ""

theorem maxKey_eq_empty {α : Type} {l : List (String × α)}
    (h1 : ∀ kv ∈ l, kv.1 ≠ "") (hm : maxKey l = "") : l = [] := by
  cases l with
  | nil => rfl
  | cons x xs =>
    exfalso
    have hx := h1 x (List.mem_cons_self x xs)
    have hle := maxKey_le (x :: xs) x (List.mem_cons_self x xs) hx
    rw [hm, strLt_empty_left hx] at hle
    simp at hle

theorem maxKey_mem {α : Type} {l : List (String × α)} (hne : maxKey l ≠ "") :
    ∃ kv ∈ l, maxKey l = kv.1 := by
  rcases foldl_getLargest_mem l "" with h | h
  · exact absurd h hne
  · exact h

theorem lookupKey_mem {α : Type} : ∀ {l : List (String × α)} {k : String}
    {s : α}, lookupKey k l = some s → (k, s) ∈ l := by
  intro l
  induction l with
  | nil => intro k s h; simp [lookupKey] at h
  | cons x xs ih =>
    intro k s h
    rw [lookupKey] at h
    split_ifs at h with hx
    · subst hx
      obtain rfl : x.2 = s := Option.some.inj h
      simp
    · exact List.mem_cons_of_mem x (ih h)

theorem mem_lookupKey {α : Type} : ∀ {l : List (String × α)},
    (l.map Prod.fst).Nodup → ∀ {k : String} {s : α}, (k, s) ∈ l →
      lookupKey k l = some s := by
  intro l
  induction l with
  | nil => intro _ k s h; simp at h
  | cons x xs ih =>
    intro hnd k s hmem
    rw [List.map_cons, List.nodup_cons] at hnd
    rw [lookupKey]
    rcases List.mem_cons.mp hmem with heq | h2
    · rw [← heq]
      simp
    · have hk : x.1 ≠ k := by
        intro he
        apply hnd.1
        rw [he]
        exact List.mem_map_of_mem Prod.fst h2
      rw [if_neg hk]
      exact ih hnd.2 h2

theorem mem_removeKey {α : Type} {k : String} {l : List (String × α)}
    {kv : String × α} : kv ∈ removeKey k l ↔ kv ∈ l ∧ kv.1 ≠ k := by
  simp [removeKey, List.mem_filter]

theorem removeKey_length_lt {α : Type} {k : String} {l : List (String × α)}
    {s : α} (h : lookupKey k l = some s) :
    (removeKey k l).length < l.length := by
  have hmem : (k, s) ∈ l := lookupKey_mem h
  refine List.length_filter_lt_length_iff_exists.mpr ⟨(k, s), hmem, ?_⟩
  simp

theorem removeKey_nodup {α : Type} {k : String} {l : List (String × α)}
    (h : (l.map Prod.fst).Nodup) :
    ((removeKey k l).map Prod.fst).Nodup :=
  h.sublist ((List.filter_sublist l).map Prod.fst)

theorem getLVFSAux_spec {α : Type} : ∀ (fuel : ℕ) (l : List (String × α))
    (validator : α → Bool), l.length ≤ fuel →
    (∀ kv ∈ l, kv.1 ≠ "") → (l.map Prod.fst).Nodup →
    ((∀ kv ∈ l, validator kv.2 = false) →
      getLVFSAux fuel l validator = (none, [])) ∧
    (∀ k s, (k, s) ∈ l → validator s = true →
      (∀ kv ∈ l, validator kv.2 = true → strLt k kv.1 = false) →
      getLVFSAux fuel l validator =
        (some s, l.filter (fun kv => strLe kv.1 k))) := by
  intro fuel
  induction fuel with
  | zero =>
    intro l v hlen h1 hnd
    have hl : l = [] := List.length_eq_zero.mp (Nat.le_zero.mp hlen)
    subst hl
    exact ⟨fun _ => rfl, fun k s hks => by simp at hks⟩
  | succ n ih =>
    intro l v hlen h1 hnd
    by_cases hl : l = []
    · subst hl
      exact ⟨fun _ => rfl, fun k s hks => by simp at hks⟩
    · have hM : maxKey l ≠ "" := fun h => hl (maxKey_eq_empty h1 h)
      obtain ⟨kvM, hkvM_mem, hkvM_eq⟩ := maxKey_mem hM
      have hlook : lookupKey (maxKey l) l = some kvM.2 := by
        apply mem_lookupKey hnd
        rw [hkvM_eq]
        simpa using hkvM_mem
      have hstep : getLVFSAux (n + 1) l v =
          if v kvM.2 = true then (some kvM.2, l)
          else getLVFSAux n (removeKey (maxKey l) l) v := by
        simp only [getLVFSAux]
        rw [if_neg hM, hlook]
      have hlen' : (removeKey (maxKey l) l).length ≤ n :=
        Nat.lt_succ_iff.mp (Nat.lt_of_lt_of_le (removeKey_length_lt hlook) hlen)
      have h1' : ∀ kv ∈ removeKey (maxKey l) l, kv.1 ≠ "" :=
        fun kv hkv => h1 kv (mem_removeKey.mp hkv).1
      have hnd' := removeKey_nodup (k := maxKey l) hnd
      constructor
      · intro hall
        have hvM : v kvM.2 = false := hall kvM hkvM_mem
        rw [hstep, if_neg (by simp [hvM])]
        exact (ih _ v hlen' h1' hnd').1
          (fun kv hkv => hall kv (mem_removeKey.mp hkv).1)
      · intro k s hks hvs hmax
        have hk_le : strLt (maxKey l) k = false :=
          maxKey_le l (k, s) hks (h1 (k, s) hks)
        by_cases hvM : v kvM.2 = true
        · have hM_le : strLt k kvM.1 = false := hmax kvM hkvM_mem hvM
          have hkM : k = kvM.1 :=
            strLt_antisymm hM_le (by rw [← hkvM_eq]; exact hk_le)
          have hsM : s = kvM.2 := by
            have e1 : lookupKey k l = some s := mem_lookupKey hnd hks
            have e2 : lookupKey k l = some kvM.2 := by
              rw [hkM, ← hkvM_eq]; exact hlook
            exact Option.some.inj (e1.symm.trans e2)
          rw [hstep, if_pos hvM, hsM]
          have hfil : l.filter (fun kv => strLe kv.1 k) = l := by
            apply List.filter_eq_self.mpr
            intro kv hkv
            rw [strLe, hkM, ← hkvM_eq, maxKey_le l kv hkv (h1 kv hkv)]
            rfl
          rw [hfil]
        · have hvMf : v kvM.2 = false := Bool.eq_false_iff.mpr hvM
          have hkM : k ≠ kvM.1 := by
            intro he
            apply hvM
            have e1 : lookupKey k l = some s := mem_lookupKey hnd hks
            have e2 : lookupKey k l = some kvM.2 := by
              rw [he, ← hkvM_eq]; exact hlook
            rw [← Option.some.inj (e1.symm.trans e2)]
            exact hvs
          rw [hstep, if_neg (by simp [hvMf])]
          have hks' : (k, s) ∈ removeKey (maxKey l) l :=
            mem_removeKey.mpr ⟨hks, by rw [hkvM_eq]; exact hkM⟩
          have hmax' : ∀ kv ∈ removeKey (maxKey l) l, v kv.2 = true →
              strLt k kv.1 = false :=
            fun kv hkv hv => hmax kv (mem_removeKey.mp hkv).1 hv
          rw [(ih _ v hlen' h1' hnd').2 k s hks' hvs hmax']
          refine congrArg (fun t => (some s, t)) ?_
          rw [removeKey, List.filter_filter]
          apply List.filter_congr
          intro kv hkv
          cases hle : strLe kv.1 k
          · rfl
          · simp only [Bool.true_and, decide_eq_true_eq]
            intro he
            apply hkM
            apply strLt_antisymm
            · have h5 : strLt k kv.1 = false := by
                cases hx : strLt k kv.1
                · rfl
                · rw [strLe, hx] at hle; simp at hle
              rw [← hkvM_eq, ← he]
              exact h5
            · rw [← hkvM_eq]; exact hk_le

/-- C8: `getLatestValidFinancialStatement` over a statement history with
nonempty, pairwise-distinct date keys (the ISO-date data-model invariant)
terminates (it is a total function of its fuelled embedding) and: (a) when
no entry satisfies the validator it returns `none` with the working set
emptied; (b) when some entry is valid it returns the statement at the
lexicographically largest valid date `k` (`strLt k kv.1 = false` states
`kv.1 ≤ k`), and the working set it leaves behind is exactly the entries
dated `≤ k` — every later-dated (necessarily invalid) entry encountered has
been removed, so it is excluded from any subsequent lookup on the same
working set. -/
theorem getLatestValidFinancialStatement_spec {α : Type}
    (statements : List (String × α)) (validator : α → Bool)
    (hkeys : ∀ kv ∈ statements, kv.1 ≠ "")
    (hnodup : (statements.map Prod.fst).Nodup) :
    ((∀ kv ∈ statements, validator kv.2 = false) →
      getLatestValidFinancialStatement statements validator = (none, [])) ∧
    (∀ k s, (k, s) ∈ statements → validator s = true →
      (∀ kv ∈ statements, validator kv.2 = true → strLt k kv.1 = false) →
      getLatestValidFinancialStatement statements validator =
        (some s, statements.filter (fun kv => strLe kv.1 k))) :=
  getLVFSAux_spec statements.length statements validator (le_refl _) hkeys
    hnodup

/-- C8 witness: on a history whose later-dated entry is invalid and whose
earlier one is valid, the selector returns the earlier valid entry and the
invalid later entry has been removed from the working set. -/
theorem getLatestValidFinancialStatement_spec_witness :
    getLatestValidFinancialStatement sampleHistory
      (fun x => decide (x < 2)) = (some 1, [("2020-03-31", 1)]) := by
  have e1 : strLe "2020-03-31" "2020-03-31" = true := by decide
  have e2 : strLe "2020-06-30" "2020-03-31" = false := by decide
  have h := (getLatestValidFinancialStatement_spec sampleHistory
      (fun x => decide (x < 2)) (by decide) (by decide)).2 "2020-03-31" 1
    (by norm_num [sampleHistory]) (by norm_num) ?_
  · rw [h]
    simp [sampleHistory, List.filter_cons, e1, e2]
  · intro kv hkv hv
    simp only [sampleHistory, List.mem_cons, List.not_mem_nil, or_false]
      at hkv
    rcases hkv with rfl | rfl
    · decide
    · norm_num at hv

theorem sampleSelection :
    getLatestValidFinancialStatement
      sampleStock.financialStatements.balanceSheets
      (fun b => validateBalanceSheet (some b)) =
      (some sampleBalanceSheet, [("2020-12-31", sampleBalanceSheet)]) := by
  have e1 : strLe "2020-12-31" "2020-12-31" = true := by decide
  have h := (getLVFSAux_spec 1 [("2020-12-31", sampleBalanceSheet)]
      (fun b => validateBalanceSheet (some b)) (by norm_num)
      (by intro kv hkv
          simp only [List.mem_cons, List.not_mem_nil, or_false] at hkv
          subst hkv
          decide)
      (by simp)).2 "2020-12-31" sampleBalanceSheet (by simp)
      (by norm_num [validateBalanceSheet, sampleBalanceSheet]) ?_
  · show getLVFSAux 1 [("2020-12-31", sampleBalanceSheet)]
      (fun b => validateBalanceSheet (some b)) = _
    rw [h]
    simp [List.filter_cons, e1]
  · intro kv hkv _
    simp only [List.mem_cons, List.not_mem_nil, or_false] at hkv
    subst hkv
    decide

theorem sample_dates_1 : strLe "2020-09-30" "2020-12-31" = true := by decide

theorem sample_dates_2 : strLe "2020-06-30" "2020-09-30" = true := by decide

theorem sample_dates_3 : strLe "2020-03-31" "2020-06-30" = true := by decide

theorem sampleNetIncomeAvg :
    getNetIncomeAvg sampleStock.financialStatements.incomeStatements 1 =
      some 100 := by
  norm_num [getNetIncomeAvg, getHistoricalValues, sortByDate, insertByDate,
    sampleStock, sample_dates_1, sample_dates_2, sample_dates_3, pydiv]

theorem sampleEbit :
    getEarningsBeforeInterestAndTaxForYear
      sampleStock.financialStatements.incomeStatements = 100 := by
  have hr4 : List.range 4 = [0, 1, 2, 3] := rfl
  norm_num [getEarningsBeforeInterestAndTaxForYear, getHistoricalValues,
    sortByDate, insertByDate, sampleStock, sample_dates_1, sample_dates_2,
    sample_dates_3, pyOr, pyAnd, intMemPairs, hr4, List.getD]

theorem sampleRevenue : getTotalRevenueForYear sampleStock = 400 := by
  norm_num [getTotalRevenueForYear, getHistoricalValues, sortByDate,
    insertByDate, sampleStock, sample_dates_1, sample_dates_2, sample_dates_3]

theorem sampleDividendYield : getDividendYieldForYear sampleStock = 0 := by
  norm_num [getDividendYieldForYear, getHistoricalValues, sortByDate,
    insertByDate, sampleStock, sample_dates_1, sample_dates_2, sample_dates_3,
    getDividendYield, safeDivide]

theorem sampleFcf : getFcfForYear sampleStock = 32 := by
  have hr4 : List.range 4 = [0, 1, 2, 3] := rfl
  norm_num [getFcfForYear, getHistoricalValues, sortByDate, insertByDate,
    sampleStock, sample_dates_1, sample_dates_2, sample_dates_3, getFcf, hr4,
    List.getD]

theorem sampleAltman : getAltmanZScore 1000 400 100 100 400 =
    some (249 / 100) := by
  norm_num [getAltmanZScore, getEquity, pydiv]

theorem sampleAvgPe : getAvgPe sampleStock 1 = 1250 / 3 := by
  norm_num [getAvgPe, getHistoricalValues, sortByDate, insertByDate,
    sampleStock, sample_dates_1, sample_dates_2, sample_dates_3, getPe,
    getEps, safeDivide]

theorem sampleValuation_fields_eval :
    (getValuation sampleStock sampleModel 0 0).map
      (fun v => (v.cr, v.peMultipleIv)) = some (5, 1567 / 100) := by
  have hr10 : List.range 10 = [0, 1, 2, 3, 4, 5, 6, 7, 8, 9] := rfl
  have hshares : sampleStock.sharesOutstanding = 100 := rfl
  have hprice : sampleStock.currentPrice = 20 := rfl
  have hdr : sampleModel.discountRate = 1 / 20 := rfl
  have hdecl : sampleModel.declineRate = 1 / 20 := rfl
  have hyearsM : sampleModel.yearsForEarningsCalcs = 1 := rfl
  have hsy : getStatementYears sampleStock.financialStatements.incomeStatements
      [("2020-12-31", sampleBalanceSheet)]
      sampleStock.financialStatements.cashFlowStatements = 0 := rfl
  simp only [getValuation, sampleSelection]
  norm_num [validateBalanceSheet, sampleBalanceSheet, hshares, hprice, hdr,
    hdecl, hyearsM, hsy, sampleNetIncomeAvg, sampleEbit, sampleRevenue,
    sampleDividendYield, sampleFcf, sampleAltman, getEquity, getRoe, getRoa,
    getMarketCap, getEps, getPe, getPeg, getPb, getDte, getCr, safeDivide,
    customRound, round_eq, getPeMultipleIv, getNpv, getGrahamIv, getDcfIv,
    futureFCFList, getRoeIv, futureEquityPerShareList,
    futureDividendsPerShareList, getLiquidationIv, pydiv, hr10, List.getD]

/-- C2 (code evaluation at the failing input): on the concrete stock whose
latest balance sheet has `assets = 1000`, `currentAssets = 500`,
`currentLiabilities = 200`, the returned valuation's current-ratio field is
`1000 / 200 = 5` — the code passes total `assets` to `getCr` — while the
claimed value `round2(currentAssets / currentLiabilities)` is `5/2`. -/
theorem valuation_cr_uses_total_assets :
    (getValuation sampleStock sampleModel 0 0).map (fun v => v.cr) =
      some 5 ∧
    customRound (getCr sampleBalanceSheet.currentAssets
        sampleBalanceSheet.currentLiabilities) 2 = 5 / 2 ∧
    (5 : ℚ) ≠ 5 / 2 := by
  refine ⟨?_, ?_, by norm_num⟩
  · obtain ⟨val, hval, hpair⟩ :=
      Option.map_eq_some'.mp sampleValuation_fields_eval
    rw [hval]
    have h2 : val.cr = 5 := by simpa using congrArg Prod.fst hpair
    simp [h2]
  · norm_num [getCr, safeDivide, sampleBalanceSheet, customRound, round_eq]

/-- C1 counterexample: on the concrete stock, the valuation's
`peMultipleIv` field is `15.67` — computed from the current P/E
(`pe = 20`) — whereas the historical-average-P/E value the claim prescribes
(`avgPe = getAvgPe = 1250/3 ≈ 416.67`, with the code's own
`eps = getEps(netIncomeAvg, shares) = 1`) gives a different number, rounded
or not. -/
theorem peMultipleIv_not_historical_avgPe :
    (getValuation sampleStock sampleModel 0 0).map
        (fun v => v.peMultipleIv) = some (1567 / 100) ∧
    (getPeMultipleIv (getEps 100 sampleStock.sharesOutstanding)
        (getAvgPe sampleStock 1) 0 sampleModel.discountRate).map
        (fun x => customRound x 2) ≠ some (1567 / 100) ∧
    getPeMultipleIv (getEps 100 sampleStock.sharesOutstanding)
        (getAvgPe sampleStock 1) 0 sampleModel.discountRate ≠
      some (1567 / 100) := by
  have hshares : sampleStock.sharesOutstanding = 100 := rfl
  have hdr : sampleModel.discountRate = 1 / 20 := rfl
  refine ⟨?_, ?_, ?_⟩
  · obtain ⟨val, hval, hpair⟩ :=
      Option.map_eq_some'.mp sampleValuation_fields_eval
    rw [hval]
    have h2 : val.peMultipleIv = 1567 / 100 := by
      simpa using congrArg Prod.snd hpair
    simp [h2]
  · rw [sampleAvgPe]
    norm_num [getPeMultipleIv, getNpv, pydiv, getEps, safeDivide, hshares,
      hdr, customRound, round_eq]
  · rw [sampleAvgPe]
    norm_num [getPeMultipleIv, getNpv, pydiv, getEps, safeDivide, hshares,
      hdr]

/-- C1 amended: for every evaluated stock whose balance-sheet selection
yields a valid sheet, the `peMultipleIv` field of the returned valuation is
`round2(NPV(eps * pe * (1 + growthRate)^5, discountRate, 5))` where `pe` is
the *current* price-to-earnings ratio `getPe(currentPrice, eps)` — the code
passes `pe`, not the historical average P/E (`getAvgPe` is never called). -/
theorem peMultipleIv_uses_current_pe (stock : Stock) (model : ValuationModel)
    (growthRate priceGrowthRate : ℚ) (val : Valuation) (lbs : BalanceSheet)
    (hsel : (getLatestValidFinancialStatement
        stock.financialStatements.balanceSheets
        (fun b => validateBalanceSheet (some b))).1 = some lbs)
    (hvalid : validateBalanceSheet (some lbs) = true)
    (ni : ℚ)
    (hni : getNetIncomeAvg stock.financialStatements.incomeStatements
        model.yearsForEarningsCalcs = some ni)
    (pm : ℚ)
    (hpm : getPeMultipleIv (getEps ni stock.sharesOutstanding)
        (getPe stock.currentPrice (getEps ni stock.sharesOutstanding))
        growthRate model.discountRate = some pm)
    (hval : getValuation stock model growthRate priceGrowthRate = some val) :
    val.peMultipleIv = customRound pm 2 := by
  simp only [getValuation] at hval
  rw [hsel] at hval
  simp only [hvalid, Bool.true_eq_false, if_false, Option.bind_eq_bind',
    Option.pure_def, Option.bind_eq_some'] at hval
  obtain ⟨ni', hni', z', hz', pm', hpm', g', hg', d', hd', r', hr', li', hli',
    hfin⟩ := hval
  obtain rfl : ni = ni' := by
    rw [hni] at hni'
    exact Option.some.inj hni'
  obtain rfl : pm = pm' := by
    rw [hpm] at hpm'
    exact Option.some.inj hpm'
  obtain rfl : _ = val := Option.some.inj hfin
  rfl

/-- C1 amended witness: the amended law instantiated on the concrete stock;
there `eps = 1`, `pe = 20`, and the field is
`round2(20 / 1.05^5) = 15.67`. -/
theorem peMultipleIv_uses_current_pe_witness :
    (getValuation sampleStock sampleModel 0 0).map
      (fun v => v.peMultipleIv) =
      some (customRound (64000000 / 4084101) 2) := by
  obtain ⟨val, hval, hpair⟩ :=
    Option.map_eq_some'.mp sampleValuation_fields_eval
  have hpm : getPeMultipleIv (getEps 100 sampleStock.sharesOutstanding)
      (getPe sampleStock.currentPrice
        (getEps 100 sampleStock.sharesOutstanding))
      0 sampleModel.discountRate = some (64000000 / 4084101) := by
    have hshares : sampleStock.sharesOutstanding = 100 := rfl
    have hprice : sampleStock.currentPrice = 20 := rfl
    have hdr : sampleModel.discountRate = 1 / 20 := rfl
    norm_num [getPeMultipleIv, getNpv, pydiv, getEps, getPe, safeDivide,
      hshares, hprice, hdr]
  have h := peMultipleIv_uses_current_pe sampleStock sampleModel 0 0 val
    sampleBalanceSheet (by rw [sampleSelection]) (by norm_num
      [validateBalanceSheet, sampleBalanceSheet]) 100 sampleNetIncomeAvg
    (64000000 / 4084101) hpm hval
  rw [hval]
  simp [h]

end FatBuck
